import Mathlib

/-!
Verification of the `obj2pattern` wireframe viewer (`src/main.py`).

The script loads a triangular mesh (vertex list `vertices`, face list
`faces`), then for each face `(i, j, k)` issues three `ax.plot` calls
drawing the triangle's edges with style `'b-', alpha=0.5`, sets the axis
labels to `X`/`Y`/`Z`, fixes the camera with `view_init(elev=20, azim=45)`
and finally calls `plt.show()`.

We embed the run of the script as the list of side-effecting calls it
issues on the matplotlib axes object (its *trace*), together with a flag
recording whether the run completed or died with an `IndexError`.
Vertex lookup follows numpy semantics: an integer index `t` into an array
of length `n` resolves to position `t` when `0 ≤ t < n`, wraps to
`n + t` when `-n ≤ t < 0`, and raises `IndexError` otherwise.
-/

namespace Obj2Pattern

/-- A 3D vertex, one row of `mesh.vertices` (coordinates kept abstract:
the script only copies them, never computes with them). -/
structure Point3 (α : Type) where
  x : α
  y : α
  z : α
  deriving DecidableEq

/-- One observable call issued on the matplotlib figure/axes. -/
inductive Event (α : Type) where
  /-- `ax.plot([px,qx],[py,qy],[pz,qz], fmt, alpha=a)` drawing segment p→q. -/
  | plotLine (p q : Point3 α) (fmt : String) (a : Rat)
  /-- `ax.set_xlabel s` -/
  | setXLabel (s : String)
  /-- `ax.set_ylabel s` -/
  | setYLabel (s : String)
  /-- `ax.set_zlabel s` -/
  | setZLabel (s : String)
  /-- `ax.view_init(elev, azim)` -/
  | viewInit (elev azim : Int)
  /-- `plt.show()` -/
  | pltShow
  deriving DecidableEq

variable {α : Type}

/-- Is this event a line-draw (`ax.plot`) call? -/
def isPlot : Event α → Bool
  | .plotLine _ _ _ _ => true
  | _ => false

/-- Is this event an axis-label call? -/
def isLabel : Event α → Bool
  | .setXLabel _ => true
  | .setYLabel _ => true
  | .setZLabel _ => true
  | _ => false

/-- Number of line-draw operations in a trace. -/
def countPlots (tr : List (Event α)) : Nat := (tr.filter isPlot).length

/-- numpy index resolution for axis 0 of an array of length `n`:
`t` itself for `0 ≤ t < n`, wrap-around `n + t` for `-n ≤ t < 0`,
`IndexError` (none) otherwise. -/
def npIndex (n : Nat) (t : Int) : Option Nat :=
  if 0 ≤ t ∧ t < (n : Int) then some t.toNat
  else if -(n : Int) ≤ t ∧ t < 0 then some ((n : Int) + t).toNat
  else none

/-- `vertices[t]` under numpy indexing (the row selected by one entry of
the fancy index `vertices[face, ·]` in `main.py` lines 21–23). -/
def npGet (V : List (Point3 α)) (t : Int) : Option (Point3 α) :=
  (npIndex V.length t).bind fun i => V[i]?

/-- One iteration of the face loop (`main.py` lines 20–27): look up the
three rows `vertices[face, ·]`, then issue the three `ax.plot` calls for
edges (i→j), (j→k), (k→i), each with format `'b-'` and `alpha=0.5`.
If any of the three indices is out of range the fancy-indexing line
raises before any of this face's plot calls happen (`none`). -/
def drawFace (V : List (Point3 α)) (f : Int × Int × Int) :
    Option (List (Event α)) := do
  let p ← npGet V f.1
  let q ← npGet V f.2.1
  let r ← npGet V f.2.2
  pure [Event.plotLine p q "b-" (1/2), Event.plotLine q r "b-" (1/2),
        Event.plotLine r p "b-" (1/2)]

/-- The face loop over the whole face list. `.ok tr`: the loop finished
issuing trace `tr`. `.error tr`: an `IndexError` escaped after the calls
in `tr` had already been issued (the loop is not resumed). -/
def renderLoop (V : List (Point3 α)) :
    List (Int × Int × Int) → Except (List (Event α)) (List (Event α))
  | [] => .ok []
  | f :: fs =>
    match drawFace V f with
    | none => .error []
    | some evs =>
      match renderLoop V fs with
      | .ok rest => .ok (evs ++ rest)
      | .error rest => .error (evs ++ rest)

/-- The calls issued by the loop, whether or not it completed. -/
def eventsOf : Except (List (Event α)) (List (Event α)) → List (Event α)
  | .ok tr => tr
  | .error tr => tr

/-- The trace the loop produces when every face resolves: faces in
face-list order, each contributing its `drawFace` calls. -/
def canonicalTrace (V : List (Point3 α)) :
    List (Int × Int × Int) → List (Event α)
  | [] => []
  | f :: fs => (drawFace V f).getD [] ++ canonicalTrace V fs

/-- The fixed calls after the loop (`main.py` lines 30–38): axis labels,
camera orientation, and the blocking display call. -/
def tailEvents : List (Event α) :=
  [Event.setXLabel "X", Event.setYLabel "Y", Event.setZLabel "Z",
   Event.viewInit 20 45, Event.pltShow]

/-- The whole script after loading: run the face loop; on success append
the label/camera/show calls, on an `IndexError` the script dies with the
partial trace and `plt.show()` is never executed. The boolean records
whether the run completed. -/
def runProgram (V : List (Point3 α)) (F : List (Int × Int × Int)) :
    List (Event α) × Bool :=
  match renderLoop V F with
  | .ok tr => (tr ++ tailEvents, true)
  | .error tr => (tr, false)

/-- All three indices of `f` are valid positions (in `[0, n)`) of a
vertex list of length `n`. -/
def validFaceB (n : Nat) (f : Int × Int × Int) : Bool :=
  (decide (0 ≤ f.1) && decide (f.1 < (n : Int))) &&
  (decide (0 ≤ f.2.1) && decide (f.2.1 < (n : Int))) &&
  (decide (0 ≤ f.2.2) && decide (f.2.2 < (n : Int)))

/-- `f` contains an index `≥ n` (the overflow case of claim C3). -/
def hasOOBIndexB (n : Nat) (f : Int × Int × Int) : Bool :=
  decide ((n : Int) ≤ f.1) || decide ((n : Int) ≤ f.2.1) ||
  decide ((n : Int) ≤ f.2.2)

/-- Program state for the frame-effect claim: the mesh data bound by
lines 11–12 of `main.py` and the canvas accumulating the issued calls. -/
structure ProgState (α : Type) where
  vertices : List (Point3 α)
  faces : List (Int × Int × Int)
  canvas : List (Event α)
  deriving DecidableEq

/-- The face loop as a state transformer: each iteration reads the mesh
data and appends this face's calls to the canvas; an `IndexError` stops
the loop with the state reached so far. -/
def drawLoopS : List (Int × Int × Int) → ProgState α → ProgState α × Bool
  | [], s => (s, true)
  | f :: fs, s =>
    match drawFace s.vertices f with
    | none => (s, false)
    | some evs => drawLoopS fs { s with canvas := s.canvas ++ evs }

/-- The whole script as a state transformer: the face loop over the
state's face list, then (on completion) the fixed trailing calls. -/
def runProgramS (s : ProgState α) : ProgState α × Bool :=
  match drawLoopS s.faces s with
  | (t, true) => ({ t with canvas := t.canvas ++ tailEvents }, true)
  | (t, false) => (t, false)

/-- Concrete sample vertex list used by the witnesses. -/
def sampleV : List (Point3 Int) := [⟨0, 0, 0⟩, ⟨1, 0, 0⟩, ⟨0, 1, 0⟩]

/-- Concrete sample face list (two triangles sharing edge 0–2). -/
def sampleF : List (Int × Int × Int) := [(0, 1, 2), (0, 2, 1)]

/-! ## Helper lemmas -/

/-- `npGet` fails exactly on indices outside `[-n, n)`. -/
lemma npGet_eq_none_iff (V : List (Point3 α)) (t : Int) :
    npGet V t = none ↔ ((V.length : Int) ≤ t ∨ t < -(V.length : Int)) := by
  unfold npGet npIndex
  split_ifs with h1 h2
  · have hl : t.toNat < V.length := by omega
    simp [List.getElem?_eq_getElem hl]
    omega
  · have hl : ((V.length : Int) + t).toNat < V.length := by omega
    simp [List.getElem?_eq_getElem hl]
    omega
  · simp
    omega

/-- A nonnegative index that hits an entry of the list resolves to it. -/
lemma npGet_of_getElem {V : List (Point3 α)} {t : Int} (h0 : 0 ≤ t)
    {p : Point3 α} (hp : V[t.toNat]? = some p) : npGet V t = some p := by
  have hl : t.toNat < V.length := by
    by_contra hc
    rw [List.getElem?_eq_none (by omega)] at hp
    exact Option.noConfusion hp
  unfold npGet npIndex
  rw [if_pos ⟨h0, by omega⟩]
  exact hp

/-- When `drawFace` succeeds, its output is exactly three plot calls
sharing endpoints cyclically and carrying the fixed style. -/
lemma drawFace_some_shape {V : List (Point3 α)} {f : Int × Int × Int}
    {l : List (Event α)} (h : drawFace V f = some l) :
    ∃ p q r, npGet V f.1 = some p ∧ npGet V f.2.1 = some q ∧
      npGet V f.2.2 = some r ∧
      l = [Event.plotLine p q "b-" (1/2), Event.plotLine q r "b-" (1/2),
           Event.plotLine r p "b-" (1/2)] := by
  unfold drawFace at h
  cases h1 : npGet V f.1 with
  | none => rw [h1] at h; exact Option.noConfusion h
  | some p =>
    rw [h1] at h
    cases h2 : npGet V f.2.1 with
    | none => rw [h2] at h; exact Option.noConfusion h
    | some q =>
      rw [h2] at h
      cases h3 : npGet V f.2.2 with
      | none => rw [h3] at h; exact Option.noConfusion h
      | some r =>
        rw [h3] at h
        exact ⟨p, q, r, rfl, rfl, rfl, (Option.some.inj h).symm⟩

/-- A face whose three indices are valid positions draws successfully. -/
lemma drawFace_isSome_of_valid {V : List (Point3 α)} {f : Int × Int × Int}
    (h : validFaceB V.length f = true) : (drawFace V f).isSome = true := by
  simp only [validFaceB, Bool.and_eq_true, decide_eq_true_eq] at h
  obtain ⟨⟨⟨h1a, h1b⟩, h2a, h2b⟩, h3a, h3b⟩ := h
  have g1 : npGet V f.1 ≠ none := by
    intro hc; rw [npGet_eq_none_iff] at hc; omega
  have g2 : npGet V f.2.1 ≠ none := by
    intro hc; rw [npGet_eq_none_iff] at hc; omega
  have g3 : npGet V f.2.2 ≠ none := by
    intro hc; rw [npGet_eq_none_iff] at hc; omega
  obtain ⟨p, hp⟩ := Option.ne_none_iff_exists'.mp g1
  obtain ⟨q, hq⟩ := Option.ne_none_iff_exists'.mp g2
  obtain ⟨r, hr⟩ := Option.ne_none_iff_exists'.mp g3
  unfold drawFace
  rw [hp, hq, hr]
  rfl

/-- A face containing an index `≥ len V` makes the fancy-indexing line
raise: `drawFace` fails. -/
lemma drawFace_eq_none_of_oob {V : List (Point3 α)} {f : Int × Int × Int}
    (h : hasOOBIndexB V.length f = true) : drawFace V f = none := by
  simp only [hasOOBIndexB, Bool.or_eq_true, decide_eq_true_eq] at h
  unfold drawFace
  rcases h with (h | h) | h
  · rw [(npGet_eq_none_iff V f.1).mpr (Or.inl h)]
    rfl
  · cases h1 : npGet V f.1 with
    | none => rfl
    | some p => rw [(npGet_eq_none_iff V f.2.1).mpr (Or.inl h)]; rfl
  · cases h1 : npGet V f.1 with
    | none => rfl
    | some p =>
      cases h2 : npGet V f.2.1 with
      | none => rfl
      | some q => rw [(npGet_eq_none_iff V f.2.2).mpr (Or.inl h)]; rfl

/-- If every face draws successfully, the loop completes and issues the
canonical trace. -/
lemma renderLoop_eq_ok {V : List (Point3 α)} :
    ∀ {F : List (Int × Int × Int)},
      (∀ f ∈ F, (drawFace V f).isSome = true) →
      renderLoop V F = .ok (canonicalTrace V F)
  | [], _ => rfl
  | f :: fs, h => by
    have hf := h f (List.mem_cons_self f fs)
    obtain ⟨l, hl⟩ := Option.isSome_iff_exists.mp hf
    have ih := renderLoop_eq_ok (fun g hg => h g (List.mem_cons_of_mem f hg))
    unfold renderLoop
    rw [hl, ih]
    show Except.ok (l ++ canonicalTrace V fs) = _
    rw [canonicalTrace, hl]
    rfl

/-- If some face fails, the loop dies with an `IndexError`. -/
lemma renderLoop_eq_error {V : List (Point3 α)} :
    ∀ {F : List (Int × Int × Int)},
      (∃ f ∈ F, drawFace V f = none) →
      ∃ tr, renderLoop V F = .error tr
  | [], h => absurd h (by simp)
  | f :: fs, h => by
    unfold renderLoop
    cases hf : drawFace V f with
    | none => exact ⟨[], rfl⟩
    | some evs =>
      have htail : ∃ g ∈ fs, drawFace V g = none := by
        obtain ⟨g, hg, hgn⟩ := h
        rcases List.mem_cons.mp hg with rfl | hg2
        · rw [hf] at hgn; exact Option.noConfusion hgn
        · exact ⟨g, hg2, hgn⟩
      obtain ⟨rest, hrest⟩ := renderLoop_eq_error htail
      rw [hrest]
      exact ⟨evs ++ rest, rfl⟩

/-- Every event the loop issues (completed or not) is a plot call. -/
lemma renderLoop_all_plots {V : List (Point3 α)} :
    ∀ {F : List (Int × Int × Int)} {e : Event α},
      e ∈ eventsOf (renderLoop V F) → isPlot e = true
  | [], _, h => absurd h (by simp [renderLoop, eventsOf])
  | f :: fs, e, h => by
    unfold renderLoop at h
    cases hf : drawFace V f with
    | none => rw [hf] at h; exact absurd h (by simp [eventsOf])
    | some l =>
      rw [hf] at h
      obtain ⟨p, q, r, _, _, _, hl⟩ := drawFace_some_shape hf
      have hmem : e ∈ l ++ eventsOf (renderLoop V fs) := by
        cases hr : renderLoop V fs with
        | ok rest => rw [hr] at h; simpa [eventsOf, hr] using h
        | error rest => rw [hr] at h; simpa [eventsOf, hr] using h
      rcases List.mem_append.mp hmem with hin | hin
      · subst hl
        rcases hin with _ | ⟨_, _ | ⟨_, _ | ⟨_, h⟩⟩⟩ <;> first | rfl | cases h
      · exact renderLoop_all_plots hin

/-- Every event in the canonical trace is a plot call. -/
lemma canonicalTrace_all_plots {V : List (Point3 α)} :
    ∀ {F : List (Int × Int × Int)} {e : Event α},
      e ∈ canonicalTrace V F → isPlot e = true
  | [], _, h => absurd h (by simp [canonicalTrace])
  | f :: fs, e, h => by
    unfold canonicalTrace at h
    rcases List.mem_append.mp h with hin | hin
    · cases hf : drawFace V f with
      | none => rw [hf] at hin; exact absurd hin (by simp)
      | some l =>
        rw [hf] at hin
        obtain ⟨p, q, r, _, _, _, hl⟩ := drawFace_some_shape hf
        subst hl
        rcases hin with _ | ⟨_, _ | ⟨_, _ | ⟨_, hc⟩⟩⟩ <;> first | rfl | cases hc
    · exact canonicalTrace_all_plots hin

/-- Plot count of the canonical trace: three per face. -/
lemma countPlots_canonicalTrace {V : List (Point3 α)} :
    ∀ {F : List (Int × Int × Int)},
      (∀ f ∈ F, (drawFace V f).isSome = true) →
      countPlots (canonicalTrace V F) = 3 * F.length
  | [], _ => rfl
  | f :: fs, h => by
    have hf := h f (List.mem_cons_self f fs)
    obtain ⟨l, hl⟩ := Option.isSome_iff_exists.mp hf
    have ih := countPlots_canonicalTrace
      (fun g hg => h g (List.mem_cons_of_mem f hg))
    obtain ⟨p, q, r, _, _, _, hshape⟩ := drawFace_some_shape hl
    unfold canonicalTrace
    rw [hl]
    simp only [Option.getD_some, countPlots, List.filter_append,
      List.length_append] at *
    subst hshape
    simp [isPlot, ih, List.length_cons, Nat.mul_succ]
    omega

/-! ## Claim theorems -/

/-- C1: for a triangle `(i, j, k)` whose indices are valid positions in
the vertex list (nonnegative and hitting entries `p`, `q`, `r`), the
face-loop body issues exactly the three line segments `p→q`, `q→r`,
`r→p`, whose endpoint coordinates are the vertex-list entries looked up
by the face's indices. -/
theorem drawFace_draws_three_edge_segments (V : List (Point3 α))
    (i j k : Int) (p q r : Point3 α)
    (h : 0 ≤ i) (g : 0 ≤ j) (e : 0 ≤ k)
    (u : V[i.toNat]? = some p) (v : V[j.toNat]? = some q)
    (w : V[k.toNat]? = some r) :
    drawFace V (i, j, k) =
      some [Event.plotLine p q "b-" (1/2), Event.plotLine q r "b-" (1/2),
            Event.plotLine r p "b-" (1/2)] := by
  unfold drawFace
  rw [npGet_of_getElem h u, npGet_of_getElem g v, npGet_of_getElem e w]
  rfl

/-- Witness for C1 at a concrete triangle over `sampleV`. -/
theorem drawFace_draws_three_edge_segments_witness :
    drawFace sampleV ((0 : Int), (1 : Int), (2 : Int)) =
      some [Event.plotLine ⟨0, 0, 0⟩ ⟨1, 0, 0⟩ "b-" (1/2),
            Event.plotLine ⟨1, 0, 0⟩ ⟨0, 1, 0⟩ "b-" (1/2),
            Event.plotLine ⟨0, 1, 0⟩ ⟨0, 0, 0⟩ "b-" (1/2)] :=
  drawFace_draws_three_edge_segments sampleV 0 1 2 ⟨0, 0, 0⟩ ⟨1, 0, 0⟩
    ⟨0, 1, 0⟩ (by decide) (by decide) (by decide) (by decide) (by decide)
    (by decide)

/-- C2: a run over a face list `F` whose indices are all valid issues
exactly `3 * F.length` line-draw operations; the count is three per face
with no deduplication, so an edge shared by two faces is counted in each
of them. -/
theorem run_issues_three_times_faces_plots (V : List (Point3 α))
    (F : List (Int × Int × Int))
    (h : ∀ f ∈ F, validFaceB V.length f = true) :
    countPlots (runProgram V F).1 = 3 * F.length := by
  have hs : ∀ f ∈ F, (drawFace V f).isSome = true :=
    fun f hf => drawFace_isSome_of_valid (h f hf)
  unfold runProgram
  rw [renderLoop_eq_ok hs]
  show countPlots (canonicalTrace V F ++ tailEvents) = _
  have ht : (tailEvents (α := α)).filter isPlot = [] := rfl
  have hc := countPlots_canonicalTrace hs
  simp only [countPlots, List.filter_append, List.length_append, ht,
    List.length_nil, Nat.add_zero] at *
  exact hc

/-- Witness for C2: two triangles sharing an edge give six plot calls. -/
theorem run_issues_three_times_faces_plots_witness :
    countPlots (runProgram sampleV sampleF).1 = 3 * sampleF.length :=
  run_issues_three_times_faces_plots sampleV sampleF (by decide)

/-- C3: if some face contains an index `≥ len V`, the run dies with an
unrecovered `IndexError` raised at the first offending face (the
completion flag is `false`) and `plt.show()` is never executed, so no
rendering is ever displayed. -/
theorem oob_index_aborts_before_display (V : List (Point3 α))
    (F : List (Int × Int × Int))
    (h : ∃ f ∈ F, hasOOBIndexB V.length f = true) :
    (runProgram V F).2 = false ∧ Event.pltShow ∉ (runProgram V F).1 := by
  obtain ⟨f, hf, hx⟩ := h
  obtain ⟨tr, htr⟩ :=
    renderLoop_eq_error ⟨f, hf, drawFace_eq_none_of_oob hx⟩
  unfold runProgram
  rw [htr]
  refine ⟨rfl, fun hmem => ?_⟩
  have hp : isPlot (Event.pltShow : Event α) = true :=
    renderLoop_all_plots (by rw [htr]; exact hmem)
  simp [isPlot] at hp

/-- Witness for C3: a single face with index 5 into a 3-vertex list. -/
theorem oob_index_aborts_before_display_witness :
    (runProgram sampleV [((0 : Int), 1, 5)]).2 = false ∧
      Event.pltShow ∉ (runProgram sampleV [((0 : Int), 1, 5)]).1 :=
  oob_index_aborts_before_display sampleV [(0, 1, 5)]
    ⟨(0, 1, 5), by decide, by decide⟩

/-- C4: with an empty face list the run issues zero line-draw calls yet
still performs the axis-label, camera and `plt.show()` calls and
completes without failure. -/
theorem empty_faces_zero_plots_still_shows (V : List (Point3 α)) :
    runProgram V ([] : List (Int × Int × Int)) = (tailEvents, true) ∧
    countPlots (runProgram V ([] : List (Int × Int × Int))).1 = 0 ∧
    Event.pltShow ∈ (runProgram V ([] : List (Int × Int × Int))).1 := by
  refine ⟨rfl, rfl, ?_⟩
  show Event.pltShow ∈ (tailEvents : List (Event α))
  simp [tailEvents]

/-- C5: the rendering pass is deterministic — the full run is a function
of the mesh data alone, equal to the canonical trace (faces in face-list
order, each face contributing its edges in the order i→j, j→k, k→i)
followed by the fixed trailing calls. -/
theorem run_deterministic_canonical_order (V : List (Point3 α))
    (F : List (Int × Int × Int))
    (h : ∀ f ∈ F, validFaceB V.length f = true) :
    runProgram V F = (canonicalTrace V F ++ tailEvents, true) := by
  have hs : ∀ f ∈ F, (drawFace V f).isSome = true :=
    fun f hf => drawFace_isSome_of_valid (h f hf)
  unfold runProgram
  rw [renderLoop_eq_ok hs]

/-- Witness for C5 at the concrete sample mesh. -/
theorem run_deterministic_canonical_order_witness :
    runProgram sampleV sampleF =
      (canonicalTrace sampleV sampleF ++ tailEvents, true) :=
  run_deterministic_canonical_order sampleV sampleF (by decide)

/-- C6: on every run that reaches the display (all face indices valid),
the axis-label calls in the trace are exactly `set_xlabel "X"`,
`set_ylabel "Y"`, `set_zlabel "Z"` — fixed strings independent of the
vertex and face data, including the empty mesh. -/
theorem axis_labels_always_xyz (V : List (Point3 α))
    (F : List (Int × Int × Int))
    (h : ∀ f ∈ F, validFaceB V.length f = true) :
    (runProgram V F).1.filter isLabel =
      [Event.setXLabel "X", Event.setYLabel "Y", Event.setZLabel "Z"] := by
  have hs : ∀ f ∈ F, (drawFace V f).isSome = true :=
    fun f hf => drawFace_isSome_of_valid (h f hf)
  unfold runProgram
  rw [renderLoop_eq_ok hs]
  show (canonicalTrace V F ++ tailEvents).filter isLabel = _
  rw [List.filter_append]
  have h1 : (canonicalTrace V F).filter isLabel = [] := by
    rw [List.filter_eq_nil_iff]
    intro e he
    have hp := canonicalTrace_all_plots he
    cases e <;> simp_all [isPlot, isLabel]
  rw [h1]
  rfl

/-- Witness for C6 at the concrete sample mesh. -/
theorem axis_labels_always_xyz_witness :
    (runProgram sampleV sampleF).1.filter isLabel =
      [Event.setXLabel "X", Event.setYLabel "Y", Event.setZLabel "Z"] :=
  axis_labels_always_xyz sampleV sampleF (by decide)

/-- C7: on every run that reaches the display, the camera call is the
fixed `view_init(elev=20, azim=45)`, placed after the entire drawing
pass (everything before the labels is a plot call) and before
`plt.show()`, independent of the input mesh. -/
theorem camera_fixed_after_drawing_before_show (V : List (Point3 α))
    (F : List (Int × Int × Int))
    (h : ∀ f ∈ F, validFaceB V.length f = true) :
    (runProgram V F).1 =
      canonicalTrace V F ++
        [Event.setXLabel "X", Event.setYLabel "Y", Event.setZLabel "Z",
         Event.viewInit 20 45, Event.pltShow] ∧
    ∀ e ∈ canonicalTrace V F, isPlot e = true := by
  have hs : ∀ f ∈ F, (drawFace V f).isSome = true :=
    fun f hf => drawFace_isSome_of_valid (h f hf)
  constructor
  · unfold runProgram
    rw [renderLoop_eq_ok hs]
    rfl
  · exact fun e he => canonicalTrace_all_plots he

/-- Witness for C7 at the concrete sample mesh. -/
theorem camera_fixed_after_drawing_before_show_witness :
    (runProgram sampleV sampleF).1 =
      canonicalTrace sampleV sampleF ++
        [Event.setXLabel "X", Event.setYLabel "Y", Event.setZLabel "Z",
         Event.viewInit 20 45, Event.pltShow] ∧
    ∀ e ∈ canonicalTrace sampleV sampleF, isPlot e = true :=
  camera_fixed_after_drawing_before_show sampleV sampleF (by decide)

/-- Any plot call the face loop issues carries format `"b-"` and
`alpha = 1/2`. -/
lemma renderLoop_plot_style {V : List (Point3 α)} :
    ∀ {F : List (Int × Int × Int)} {p q : Point3 α} {s : String} {a : Rat},
      Event.plotLine p q s a ∈ eventsOf (renderLoop V F) →
      s = "b-" ∧ a = 1/2
  | [], _, _, _, _, h => absurd h (by simp [renderLoop, eventsOf])
  | f :: fs, p, q, s, a, h => by
    unfold renderLoop at h
    cases hf : drawFace V f with
    | none => rw [hf] at h; exact absurd h (by simp [eventsOf])
    | some l =>
      rw [hf] at h
      obtain ⟨x, y, z, _, _, _, hl⟩ := drawFace_some_shape hf
      have hmem : Event.plotLine p q s a ∈ l ++ eventsOf (renderLoop V fs) := by
        cases hr : renderLoop V fs with
        | ok rest => rw [hr] at h; simpa [eventsOf] using h
        | error rest => rw [hr] at h; simpa [eventsOf] using h
      rcases List.mem_append.mp hmem with hin | hin
      · subst hl
        simp only [List.mem_cons, List.not_mem_nil, or_false] at hin
        rcases hin with h1 | h1 | h1 <;>
          · injection h1 with e1 e2 e3 e4
            exact ⟨e3, e4⟩
      · exact renderLoop_plot_style hin

/-- C8: every line segment in any run's trace carries the same fixed
style, blue (`"b-"`) with `alpha = 1/2`; no draw call uses any other
style. -/
theorem every_segment_has_fixed_style (V : List (Point3 α))
    (F : List (Int × Int × Int)) (p q : Point3 α) (s : String) (a : Rat)
    (h : Event.plotLine p q s a ∈ (runProgram V F).1) :
    s = "b-" ∧ a = 1/2 := by
  unfold runProgram at h
  cases hr : renderLoop V F with
  | ok tr =>
    rw [hr] at h
    rcases List.mem_append.mp h with hin | hin
    · exact renderLoop_plot_style (by rw [hr]; exact hin)
    · exact absurd hin (by simp [tailEvents])
  | error tr =>
    rw [hr] at h
    exact renderLoop_plot_style (by rw [hr]; exact h)

/-- Witness for C8 at a concrete plot call of the sample run. -/
theorem every_segment_has_fixed_style_witness :
    "b-" = "b-" ∧ (1/2 : Rat) = 1/2 :=
  every_segment_has_fixed_style sampleV sampleF ⟨0, 0, 0⟩ ⟨1, 0, 0⟩
    "b-" (1/2) (List.Mem.head _)

/-- The face loop never writes the mesh fields of the state, and only
appends to the canvas. -/
lemma drawLoopS_frame :
    ∀ (l : List (Int × Int × Int)) (s : ProgState α),
      (drawLoopS l s).1.vertices = s.vertices ∧
      (drawLoopS l s).1.faces = s.faces ∧
      ∃ t, (drawLoopS l s).1.canvas = s.canvas ++ t
  | [], s => ⟨rfl, rfl, [], by simp [drawLoopS]⟩
  | f :: fs, s => by
    unfold drawLoopS
    cases hf : drawFace s.vertices f with
    | none => exact ⟨rfl, rfl, [], by simp⟩
    | some evs =>
      obtain ⟨h1, h2, t, h3⟩ :=
        drawLoopS_frame fs { s with canvas := s.canvas ++ evs }
      exact ⟨h1, h2, evs ++ t, by rw [h3]; simp⟩

/-- C9: the rendering pass is read-only on the mesh data — after the
whole run the state's vertex list and face list are unchanged, and the
only mutated component is the canvas, which has only grown. -/
theorem mesh_data_read_only (s : ProgState α) :
    (runProgramS s).1.vertices = s.vertices ∧
    (runProgramS s).1.faces = s.faces ∧
    ∃ t, (runProgramS s).1.canvas = s.canvas ++ t := by
  obtain ⟨h1, h2, t, h3⟩ := drawLoopS_frame s.faces s
  unfold runProgramS
  cases hd : drawLoopS s.faces s with
  | mk st b =>
    rw [hd] at h1 h2 h3
    cases b with
    | false => exact ⟨h1, h2, t, h3⟩
    | true =>
      refine ⟨h1, h2, t ++ tailEvents, ?_⟩
      show st.canvas ++ tailEvents = _
      rw [h3, List.append_assoc]

/-- C10: numpy indexing makes a negative face index `t` with
`-len V ≤ t < 0` resolve silently to `V[len V + t]` (the lookup
succeeds and a segment is drawn rather than failing), and the
out-of-range fault occurs exactly for indices `≥ len V` or
`< -len V`. -/
theorem negative_index_wraps_silently (V : List (Point3 α)) (t : Int) :
    (npGet V t = none ↔ ((V.length : Int) ≤ t ∨ t < -(V.length : Int))) ∧
    (-(V.length : Int) ≤ t → t < 0 →
      npGet V t = V[((V.length : Int) + t).toNat]? ∧
      (npGet V t).isSome = true) ∧
    (-(V.length : Int) ≤ t → t < 0 →
      (drawFace V (t, t, t)).isSome = true) := by
  have key : -(V.length : Int) ≤ t → t < 0 →
      npGet V t = V[((V.length : Int) + t).toNat]? ∧
      (npGet V t).isSome = true := by
    intro h1 h2
    have hv : npGet V t = V[((V.length : Int) + t).toNat]? := by
      unfold npGet npIndex
      rw [if_neg (by omega), if_pos ⟨h1, h2⟩]
      rfl
    have hl : ((V.length : Int) + t).toNat < V.length := by omega
    refine ⟨hv, ?_⟩
    rw [hv, List.getElem?_eq_getElem hl]
    rfl
  refine ⟨npGet_eq_none_iff V t, key, fun h1 h2 => ?_⟩
  obtain ⟨p, hp⟩ := Option.isSome_iff_exists.mp (key h1 h2).2
  unfold drawFace
  rw [hp]
  rfl

/-- Witness for C10: index `-1` into the 3-vertex sample resolves to
entry 2 and its face draws. -/
theorem negative_index_wraps_silently_witness :
    (npGet sampleV (-1) =
      sampleV[(((sampleV.length : Int)) + (-1)).toNat]? ∧
      (npGet sampleV (-1)).isSome = true) ∧
    (drawFace sampleV ((-1 : Int), -1, -1)).isSome = true :=
  ⟨(negative_index_wraps_silently sampleV (-1)).2.1 (by decide) (by decide),
   (negative_index_wraps_silently sampleV (-1)).2.2 (by decide) (by decide)⟩

end Obj2Pattern
